import Mathlib

/-!
# Verification of the autoscaling Ollama/Kubernetes worker

Shallow embedding of the Python sources of `autoscaling_ollama_k8s`
(`utils/manage_models.py`, `worker/celery_app.py`, `services/cache.py`,
`services/redis_client.py`) together with proofs about the embedded
operations.

Model sizes are measured in MiB and modelled as rationals (the Python
code manipulates `float` MiB values obtained by dividing byte counts by
`1024**2`; the selection and planning logic only adds and compares those
values, so `ℚ` is an exact stand-in).  External effects (the Ollama
client, Redis, NVML) appear as explicit inputs and as traces of emitted
operations.
-/

/-- A resident model as seen by `ollama ps` / `client.list()`: a name and a
size in MiB.  Mirrors the `{'name': ..., 'size': ...}` dictionaries built in
`load_or_queue_model` (`utils/manage_models.py`, lines 191-194). -/
structure OModel where
  name : String
  size : ℚ
deriving DecidableEq, Repr

/-- `sum(m['size'] for m in combo)` (`utils/manage_models.py`, line 94). -/
def sumSize (l : List OModel) : ℚ := (l.map OModel.size).sum

/-- `itertools.combinations(lst, r)`: all length-`r` subsequences of `lst`,
in the order `itertools` produces them (combinations containing the head
first, then the ones avoiding it). -/
def combos : List OModel → Nat → List (List OModel)
  | _, 0 => [[]]
  | [], _+1 => []
  | x :: xs, r+1 => (combos xs r).map (fun c => x :: c) ++ combos xs (r+1)

/-- The enumeration `for r in range(1, n+1): for combo in combinations(lst, r)`
of `select_models_to_offload` (`utils/manage_models.py`, lines 92-93). -/
def allCombos (l : List OModel) : List (List OModel) :=
  (List.range l.length).flatMap (fun i => combos l (i+1))

/-- One iteration of the selection loop body (`utils/manage_models.py`,
lines 94-101).  `none` plays the role of the initial
`best_subset = None / best_total = inf` state; the condition
`best_total is None` in the Python source is dead (when `best_subset` is
`None`, `best_total` is `inf` and every qualifying `total` takes the
strict-inequality branch), so the `some` case keeps exactly the live
condition `total < best_total or (total == best_total and
len(combo) < len(best_subset))`. -/
def selStep (required : ℚ) (best : Option (List OModel)) (combo : List OModel) :
    Option (List OModel) :=
  let total := sumSize combo
  if required ≤ total then
    match best with
    | none => some combo
    | some b =>
      if total < sumSize b ∨ (total = sumSize b ∧ combo.length < b.length) then
        some combo
      else some b
  else best

/-- `select_models_to_offload(offloadable_models, required_extra)`
(`utils/manage_models.py`, lines 80-103): brute-force search for a subset of
the offloadable models whose total size covers `required_extra`. -/
def select_models_to_offload (offloadable : List OModel) (required : ℚ) :
    List OModel :=
  if required ≤ 0 then []
  else
    match (allCombos offloadable).foldl (selStep required) none with
    | some b => b
    | none => []

/-! ## Combinatorial facts about the enumeration -/

theorem mem_combos_iff :
    ∀ (l : List OModel) (r : Nat) (c : List OModel),
      c ∈ combos l r ↔ c.Sublist l ∧ c.length = r := by
  intro l
  induction l with
  | nil =>
    intro r c
    cases r with
    | zero =>
      simp only [combos, List.mem_singleton]
      constructor
      · rintro rfl; exact ⟨List.Sublist.refl _, rfl⟩
      · rintro ⟨hs, _⟩; exact List.sublist_nil.mp hs
    | succ r =>
      simp only [combos, List.not_mem_nil, false_iff, not_and]
      intro hs
      rw [List.sublist_nil.mp hs]
      simp
  | cons x xs ih =>
    intro r c
    cases r with
    | zero =>
      simp only [combos, List.mem_singleton]
      constructor
      · rintro rfl; exact ⟨List.nil_sublist _, rfl⟩
      · rintro ⟨_, hl⟩; exact List.length_eq_zero.mp hl
    | succ r =>
      simp only [combos, List.mem_append, List.mem_map]
      constructor
      · rintro (⟨c', hc', rfl⟩ | hc)
        · obtain ⟨hs, hl⟩ := (ih r c').mp hc'
          exact ⟨List.Sublist.cons₂ x hs, by simp [hl]⟩
        · obtain ⟨hs, hl⟩ := (ih (r+1) c).mp hc
          exact ⟨hs.cons x, hl⟩
      · rintro ⟨hs, hl⟩
        rcases List.sublist_cons_iff.mp hs with hs' | ⟨c', rfl, hs'⟩
        · exact Or.inr ((ih (r+1) c).mpr ⟨hs', hl⟩)
        · exact Or.inl ⟨c', (ih r c').mpr ⟨hs', by simpa using hl⟩, rfl⟩

theorem mem_allCombos_iff (c : List OModel) (l : List OModel) :
    c ∈ allCombos l ↔ c.Sublist l ∧ c ≠ [] := by
  simp only [allCombos, List.mem_flatMap, List.mem_range]
  constructor
  · rintro ⟨i, _, hc⟩
    obtain ⟨hs, hl⟩ := (mem_combos_iff l (i+1) c).mp hc
    refine ⟨hs, ?_⟩
    intro h
    rw [h] at hl
    simp at hl
  · rintro ⟨hs, hne⟩
    have hpos : 0 < c.length := List.length_pos.mpr hne
    refine ⟨c.length - 1, ?_, ?_⟩
    · have := hs.length_le
      omega
    · have : c.length - 1 + 1 = c.length := by omega
      rw [this]
      exact (mem_combos_iff l c.length c).mpr ⟨hs, rfl⟩

/-! ## Invariant of the selection loop -/

/-- `s` is a qualifying subset drawn from the pool `L` that is optimal among
`L`: minimum total size, with ties broken by cardinality. -/
def IsBestAmong (required : ℚ) (s : List OModel) (L : List (List OModel)) : Prop :=
  s ∈ L ∧ required ≤ sumSize s ∧
    ∀ c ∈ L, required ≤ sumSize c →
      sumSize s ≤ sumSize c ∧ (sumSize s = sumSize c → s.length ≤ c.length)

/-- Invariant relating the loop accumulator to the combos processed so far. -/
def GoodAcc (required : ℚ) (L : List (List OModel)) :
    Option (List OModel) → Prop
  | none => ∀ c ∈ L, ¬ required ≤ sumSize c
  | some s => IsBestAmong required s L

theorem goodAcc_step (required : ℚ) (L : List (List OModel))
    (b : Option (List OModel)) (c : List OModel) (h : GoodAcc required L b) :
    GoodAcc required (L ++ [c]) (selStep required b c) := by
  cases b with
  | none =>
    simp only [GoodAcc] at h
    by_cases hq : required ≤ sumSize c
    · simp only [selStep, if_pos hq, GoodAcc, IsBestAmong]
      refine ⟨by simp, hq, ?_⟩
      intro d hd hqd
      rcases List.mem_append.mp hd with hd | hd
      · exact absurd hqd (h d hd)
      · rw [List.mem_singleton.mp hd]
        exact ⟨le_refl _, fun _ => le_refl _⟩
    · simp only [selStep, if_neg hq, GoodAcc]
      intro d hd
      rcases List.mem_append.mp hd with hd | hd
      · exact h d hd
      · rw [List.mem_singleton.mp hd]; exact hq
  | some s =>
    obtain ⟨hmem, hq, hopt⟩ := h
    by_cases hqc : required ≤ sumSize c
    · by_cases hupd : sumSize c < sumSize s ∨
        (sumSize c = sumSize s ∧ c.length < s.length)
      · simp only [selStep, if_pos hqc, if_pos hupd, GoodAcc, IsBestAmong]
        refine ⟨by simp, hqc, ?_⟩
        intro d hd hqd
        rcases List.mem_append.mp hd with hd | hd
        · obtain ⟨hle, htie⟩ := hopt d hd hqd
          have hcs : sumSize c ≤ sumSize s := by
            rcases hupd with h1 | ⟨h1, _⟩
            · exact le_of_lt h1
            · exact le_of_eq h1
          refine ⟨le_trans hcs hle, ?_⟩
          intro heq
          have hss : sumSize c = sumSize s := le_antisymm hcs (by
            calc sumSize s ≤ sumSize d := hle
            _ = sumSize c := heq.symm)
          rcases hupd with h1 | ⟨_, h2⟩
          · exact absurd hss (ne_of_lt h1)
          · exact le_trans (le_of_lt h2) (htie (hss.symm.trans heq))
        · rw [List.mem_singleton.mp hd]
          exact ⟨le_refl _, fun _ => le_refl _⟩
      · simp only [selStep, if_pos hqc, if_neg hupd, GoodAcc, IsBestAmong]
        push_neg at hupd
        refine ⟨List.mem_append_left _ hmem, hq, ?_⟩
        intro d hd hqd
        rcases List.mem_append.mp hd with hd | hd
        · exact hopt d hd hqd
        · rw [List.mem_singleton.mp hd]
          have hsc : sumSize s ≤ sumSize c := hupd.1
          exact ⟨hsc, fun heq => hupd.2 heq.symm⟩
    · simp only [selStep, if_neg hqc, GoodAcc, IsBestAmong]
      refine ⟨List.mem_append_left _ hmem, hq, ?_⟩
      intro d hd hqd
      rcases List.mem_append.mp hd with hd | hd
      · exact hopt d hd hqd
      · rw [List.mem_singleton.mp hd] at hqd
        exact absurd hqd hqc

theorem goodAcc_foldl (required : ℚ) (M : List (List OModel)) :
    ∀ (L : List (List OModel)) (b : Option (List OModel)),
      GoodAcc required L b →
      GoodAcc required (L ++ M) (M.foldl (selStep required) b) := by
  induction M with
  | nil => intro L b h; simpa using h
  | cons m M ih =>
    intro L b h
    have h1 := goodAcc_step required L b m h
    have h2 := ih (L ++ [m]) (selStep required b m) h1
    simpa using h2

theorem goodAcc_select (required : ℚ) (l : List OModel) :
    GoodAcc required (allCombos l)
      ((allCombos l).foldl (selStep required) none) := by
  have h0 : GoodAcc required [] (none : Option (List OModel)) := by
    intro c hc
    simp at hc
  simpa using goodAcc_foldl required (allCombos l) [] none h0

/-- The selection always returns a subsequence of the offloadable pool. -/
theorem select_sublist (l : List OModel) (required : ℚ) :
    (select_models_to_offload l required).Sublist l := by
  unfold select_models_to_offload
  by_cases h0 : required ≤ 0
  · simp [h0]
  · simp only [if_neg h0]
    have := goodAcc_select required l
    cases hm : (allCombos l).foldl (selStep required) none with
    | none => exact List.nil_sublist l
    | some s =>
      rw [hm] at this
      exact ((mem_allCombos_iff s l).mp this.1).1

/-- When some nonempty subsequence covers the demand, the selection returns
an optimal one. -/
theorem select_isBest (l : List OModel) (required : ℚ) (h0 : ¬ required ≤ 0)
    (hfeas : ∃ c, c.Sublist l ∧ c ≠ [] ∧ required ≤ sumSize c) :
    IsBestAmong required (select_models_to_offload l required) (allCombos l) := by
  obtain ⟨c, hs, hne, hq⟩ := hfeas
  have hcmem : c ∈ allCombos l := (mem_allCombos_iff c l).mpr ⟨hs, hne⟩
  have hgood := goodAcc_select required l
  unfold select_models_to_offload
  simp only [if_neg h0]
  cases hm : (allCombos l).foldl (selStep required) none with
  | none =>
    rw [hm] at hgood
    exact absurd hq (hgood c hcmem)
  | some s =>
    rw [hm] at hgood
    exact hgood

/-! ## The VRAM planner of `load_or_queue_model`

`load_or_queue_model` (`utils/manage_models.py`, lines 105-261) runs a
decision procedure over the GPU state: reject models larger than the GPU,
accept already-resident models, load directly when free VRAM suffices, and
otherwise offload an optimal subset of unprotected resident models.
`load_plan` embeds that decision logic (source lines 153-255) as a pure
function of its inputs: the VRAM readings, the `ollama ps` resident list,
the active/queued tracking sets, and an oracle `offloadOk` recording which
`generate(..., keep_alive=0)` offload calls succeed (line 226-233 counts
only the successful ones into `freed_space`). -/

/-- The dictionary returned by `get_vram_usage` (`utils/gpu.py` /
`utils/manage_models.py`, lines 33-37), in MiB. -/
structure Vram where
  total : ℚ
  used : ℚ
  free : ℚ
deriving DecidableEq, Repr

/-- One `ollama_client.generate(model=..., prompt="", keep_alive=...)` call:
`keep_alive = -1` pins a model, `keep_alive = 0` offloads it. -/
structure GenCall where
  model : String
  keep_alive : Int
deriving DecidableEq, Repr

/-- The observable outcome of the planner: the `status` string of the
returned dictionary, the `offloaded` model names reported in it, and the
`generate` calls issued along the way. -/
structure PlanResult where
  status : String
  offloaded : List String
  actions : List GenCall
deriving DecidableEq, Repr

/-- Lines 183-194 of `utils/manage_models.py`: the offloadable pool is the
resident list minus the protected names (`continue` on
`model_name_loaded in protected_models`). -/
def offloadable_models (loaded : List OModel) (prot : List String) :
    List OModel :=
  loaded.filter (fun m => ¬ m.name ∈ prot)

/-- Decision logic of `load_or_queue_model` (`utils/manage_models.py`,
lines 153-255).  `protected_models = active_models.union(queued_models)`
is the name-union of the two tracking sets (lines 176-178). -/
def load_plan (model_name : String) (model_size : ℚ) (vram : Vram)
    (loaded : List OModel) (active queued : List String)
    (offloadOk : String → Bool) : PlanResult :=
  -- line 153: model larger than the whole GPU
  if vram.total < model_size then
    ⟨"error", [], []⟩
  -- lines 161-164: model already resident
  else if loaded.any (fun m => m.name == model_name) then
    ⟨"loaded", [], []⟩
  -- lines 166-170: enough free VRAM, pin directly
  else if model_size < vram.free then
    ⟨"loaded", [], [⟨model_name, -1⟩]⟩
  else
    -- lines 176-194
    let prot := active ++ queued
    let offloadable := offloadable_models loaded prot
    -- lines 196-204
    if offloadable = [] then
      ⟨"insufficient_vram", [], []⟩
    else
      -- lines 206-207
      let required_extra := max 0 (model_size - vram.free)
      let to_offload := select_models_to_offload offloadable required_extra
      -- lines 209-221
      if to_offload = [] then
        ⟨"insufficient_vram", [], []⟩
      else
        -- lines 223-233: attempt to offload each selected model; only the
        -- successful `generate(..., keep_alive=0)` calls count as freed
        let attempts := to_offload.map (fun m => GenCall.mk m.name 0)
        let succeeded := to_offload.filter (fun m => offloadOk m.name)
        let freed := sumSize succeeded
        -- lines 235-255
        if model_size ≤ freed + vram.free then
          ⟨"loaded", succeeded.map OModel.name, attempts ++ [⟨model_name, -1⟩]⟩
        else
          ⟨"insufficient_vram", succeeded.map OModel.name, attempts⟩

/-! ## Execution model of `load_or_queue_model` itself

`load_plan` above captures the decision logic, but the function body as
written never reaches it: line 137 of `utils/manage_models.py` tests
`if not model_size or not vram_usage:` although the local `vram_usage` is
first assigned only at line 147, and the `finally` block at line 261 calls
`lock.release()` although the local `lock` is first assigned at line 142.
The model below embeds the function body with explicit Python local-variable
semantics (reading a local before its first assignment raises
`UnboundLocalError`), the `except Exception` handler of lines 257-259 and
the `finally` of lines 260-261.  The code from line 141 onward is kept
abstract as a continuation parameter `rest`, so the theorems hold whatever
that code would do. -/

/-- A Python value, as far as this function body needs: the Ollama client
object, the `Optional[float]` returned by `get_model_size`, or any other
object produced by the rest of the body. -/
inductive PyVal where
  | client
  | optFloat (v : Option ℚ)
  | obj (tag : String)
deriving DecidableEq, Repr

/-- A raised Python exception. -/
inductive PyExc where
  | unboundLocal (var : String)
  | other (msg : String)
deriving DecidableEq, Repr

/-- The dictionary a path of `load_or_queue_model` would return, reduced to
its `status` field. -/
structure PyDict where
  status : String
deriving DecidableEq, Repr

/-- The local-variable environment of one Python frame. -/
abbrev Env := List (String × PyVal)

/-- Assigning a local. -/
def setLocal (env : Env) (x : String) (v : PyVal) : Env := (x, v) :: env

/-- Reading a local: a name that has not been assigned yet raises
`UnboundLocalError` (all of `model_size`, `vram_usage` and `lock` are
assigned somewhere in the function body, so they are locals throughout). -/
def readLocal (env : Env) (x : String) : Except PyExc PyVal :=
  match env.lookup x with
  | some v => Except.ok v
  | none => Except.error (PyExc.unboundLocal x)

/-- Python truthiness of an `Optional[float]`: `None` and `0.0` are falsy. -/
def pyFalsy : PyVal → Bool
  | PyVal.optFloat none => true
  | PyVal.optFloat (some q) => q == 0
  | _ => false

/-- The `try` body of `load_or_queue_model` (`utils/manage_models.py`,
lines 133-255).  `msize` is the value returned by the `get_model_size` call
of line 136 (that helper catches its own exceptions and returns a float or
`None`).  `rest` is the continuation for lines 141-255, entered with the
value of `vram_usage` read at line 137 and the environment at that point;
it returns the final environment together with a normal or exceptional
outcome. -/
def lqm_tryBody (msize : Option ℚ)
    (rest : PyVal → Env → Env × Except PyExc PyDict) :
    Env × Except PyExc PyDict :=
  -- line 134: ollama_client = Client(host=OLLAMA_HOST)
  let env := setLocal [] "ollama_client" PyVal.client
  -- line 136: model_size = get_model_size(ollama_client, model_name)
  let env := setLocal env "model_size" (PyVal.optFloat msize)
  -- line 137: if not model_size or not vram_usage:
  match readLocal env "model_size" with
  | Except.error e => (env, Except.error e)
  | Except.ok ms =>
    if pyFalsy ms then
      -- line 139: return {"status": "error", ...}
      (env, Except.ok ⟨"error"⟩)
    else
      -- `or` is short-circuiting: only now is `vram_usage` read
      match readLocal env "vram_usage" with
      | Except.error e => (env, Except.error e)
      | Except.ok vu => rest vu env

/-- The whole of `load_or_queue_model` around the `try` body: the
`except Exception` handler of lines 257-259 turns any exception into a
returned `{"status": "error", ...}` dictionary, and the `finally` of
lines 260-261 then evaluates `lock.release()`; an exception raised inside
`finally` replaces the pending return value or exception. -/
def load_or_queue_model_run (msize : Option ℚ)
    (rest : PyVal → Env → Env × Except PyExc PyDict) :
    Except PyExc PyDict :=
  let step := lqm_tryBody msize rest
  -- lines 257-259: except Exception as e: return {"status": "error", ...}
  let handled : Except PyExc PyDict :=
    match step.2 with
    | Except.ok v => Except.ok v
    | Except.error _ => Except.ok ⟨"error"⟩
  -- lines 260-261: finally: lock.release()
  match readLocal step.1 "lock" with
  | Except.error e => Except.error e
  | Except.ok _ => handled

/-! ## The Celery worker (`worker/celery_app.py`)

`ollama_stream` and `process_ollama_request` interact with Redis and the
tracking cache.  Both are modelled as functions from their external inputs
(the chat iterator's behaviour, the result of `manage_model_loading`) to the
ordered trace of side-effecting operations they perform plus their outcome.
`process_ollama_request` calls both `manage_model_loading` and
`ollama_stream` synchronously, as plain function calls (lines 139 and 155 —
the `FIXME` at line 127 notes the missing chaining), so an exception
re-raised by `ollama_stream` lands in the orchestrator's own
`except Exception` handler. -/

/-- A side-effecting operation of the worker: the cache markers of
`services/cache.py`, a Redis `publish`, or the synchronous
`manage_model_loading` call. -/
inductive Op where
  | markActive (model task : String)
  | markInactive (model task : String)
  | markQueued (model task : String)
  | markDequeued (model task : String)
  | publish (channel msg : String)
  | loadModel (model : String)
deriving DecidableEq, Repr

/-- Behaviour of the chat iterator of line 101: either it yields a list of
content chunks and finishes, or it yields some chunks and then raises an
exception whose `str` is `err`. -/
inductive StreamOutcome where
  | ok (chunks : List String)
  | fail (chunks : List String) (err : String)
deriving DecidableEq, Repr

/-- `f'[ERROR: {str(e)}]'` (`worker/celery_app.py`, lines 118 and 144/168). -/
def errorMsg (e : String) : String := "[ERROR: " ++ e ++ "]"

/-- `ollama_stream` (`worker/celery_app.py`, lines 80-125) as a trace:
mark active and dequeued up front (lines 89-90), publish every chunk's
`content` (lines 101-103), then `[DONE]` (line 104); on an exception,
publish `[ERROR: ...]` then `[DONE]` (lines 118-119) and re-raise
(line 122); the `finally` (lines 123-124) marks the model inactive in every
case.  The outcome is `ok` on normal return and `error e` when the
exception `e` propagates. -/
def ollama_stream_model (channel model taskId : String)
    (outcome : StreamOutcome) : List Op × Except String Unit :=
  let pre := [Op.markActive model taskId, Op.markDequeued model taskId]
  match outcome with
  | StreamOutcome.ok chunks =>
    (pre ++ chunks.map (Op.publish channel) ++
      [Op.publish channel "[DONE]", Op.markInactive model taskId],
     Except.ok ())
  | StreamOutcome.fail chunks err =>
    (pre ++ chunks.map (Op.publish channel) ++
      [Op.publish channel (errorMsg err), Op.publish channel "[DONE]",
       Op.markInactive model taskId],
     Except.error err)

/-- The `status`/`message` fields of the dictionary returned by
`manage_model_loading` (`worker/celery_app.py`, lines 55-66, which passes
through the result of `load_or_queue_model`). -/
structure LoadResult where
  status : String
  message : String
deriving DecidableEq, Repr

/-- `process_ollama_request` (`worker/celery_app.py`, lines 128-175) as a
trace.  `innerTaskId` is the `self.request.id` seen by the synchronously
called `ollama_stream` (a direct call, so a fresh request context: the id
is `None`).  When the stream returns normally, line 156 first evaluates
`ollama_stream.id` — a Celery `Task` object has no `id` attribute — so an
`AttributeError` is raised before `mark_model_queued` can be invoked; it
lands in the orchestrator's `except Exception` handler of lines 164-175,
which publishes `[ERROR: ...][DONE]` and returns status `"error"`.
`attrErr` is the `str` of that `AttributeError`.  `mark_model_queued`
therefore never executes and the `"completed"` return of lines 158-162 is
unreachable.  Returns the trace and the `status` field of the returned
dictionary (`"failed"` or `"error"`). -/
def process_ollama_request_model (channel model innerTaskId attrErr : String)
    (loading : LoadResult) (outcome : StreamOutcome) : List Op × String :=
  -- line 139: loading_result = manage_model_loading(model_name, gpu_index)
  if loading.status ≠ "loaded" then
    -- lines 141-150: publish [ERROR: msg][DONE], return status 'failed'
    ([Op.loadModel model, Op.publish channel (errorMsg loading.message),
      Op.publish channel "[DONE]"],
     "failed")
  else
    -- line 155: streaming_result = ollama_stream(...), called synchronously
    let stream := ollama_stream_model channel model innerTaskId outcome
    match stream.2 with
    | Except.ok _ =>
      -- line 156: `mark_model_queued(model_name, ollama_stream.id)` — the
      -- attribute access raises AttributeError before the call is made;
      -- the handler of lines 164-175 publishes [ERROR: ...][DONE] and
      -- returns status 'error'
      (Op.loadModel model :: stream.1 ++
        [Op.publish channel (errorMsg attrErr), Op.publish channel "[DONE]"],
       "error")
    | Except.error e =>
      -- lines 164-175: the re-raised stream exception reaches the
      -- orchestrator's own handler, which publishes [ERROR: e][DONE]
      -- again and returns status 'error'
      (Op.loadModel model :: stream.1 ++
        [Op.publish channel (errorMsg e), Op.publish channel "[DONE]"],
       "error")

/-- The messages published on a given channel, in order. -/
def pubs (trace : List Op) (channel : String) : List String :=
  trace.filterMap (fun op =>
    match op with
    | Op.publish c m => if c = channel then some m else none
    | _ => none)

/-- How many `manage_model_loading` admission attempts a trace contains. -/
def loadAttempts (trace : List Op) : Nat :=
  trace.countP (fun op =>
    match op with
    | Op.loadModel _ => true
    | _ => false)

/-! ## `RedisLock.release` (`services/redis_client.py`, lines 49-66)

`get_redis_client` (lines 12-20) builds the client with
`decode_responses=True`, so `pipe.get(self.name)` returns an already-decoded
`str` (or `None`).  Line 55 then calls `val.decode()`; a Python 3 `str` has
no `decode` method, so that raises `AttributeError`, which the
`except Exception` of lines 64-66 swallows after `unwatch`.  The model keeps
the decode step explicit rather than its consequence. -/

/-- A value returned by a redis-py `GET`: absent key, decoded string
(`decode_responses=True`), or raw bytes (`decode_responses=False`). -/
inductive RVal where
  | absent
  | str (s : String)
  | bytes (s : String)
deriving DecidableEq, Repr

/-- `pipe.get(self.name)` through the client built by `get_redis_client`:
`decode_responses=True`, so a present value comes back as `RVal.str`. -/
def redisGet (stored : Option String) : RVal :=
  match stored with
  | some s => RVal.str s
  | none => RVal.absent

/-- Python's `val.decode()`: defined on `bytes`, an `AttributeError` on
`str` (and on `None`). -/
def pyDecode : RVal → Except String String
  | RVal.bytes s => Except.ok s
  | RVal.str _ => Except.error "AttributeError: str has no attribute decode"
  | RVal.absent => Except.error "AttributeError: NoneType has no attribute decode"

namespace RedisLock

/-- `RedisLock.release` (`services/redis_client.py`, lines 49-66) acting on
the value stored under the lock key: `val = pipe.get(self.name)`; if
`val is not None and val.decode() == self.value` then `DELETE` the key,
else `unwatch` and leave it; any exception is swallowed (lines 64-66),
also leaving the key untouched.  Returns the stored value afterwards. -/
def release (stored : Option String) (token : String) : Option String :=
  let val := redisGet stored
  match val with
  | RVal.absent => stored
  | _ =>
    match pyDecode val with
    | Except.ok s => if s = token then none else stored
    | Except.error _ => stored

end RedisLock

/-! ## `cleanup_inactive_model_tracking` (`utils/manage_models.py`, 263-280) -/

/-- The tracking keyspace: `active_model:<name>` and `queued_model:<name>`
keys, each holding a set of task ids. -/
structure TrackState where
  active : List (String × List String)
  queued : List (String × List String)
deriving DecidableEq, Repr

/-- `cleanup_inactive_model_tracking`: for every key matching
`active_model:*` whose model name is not among the `ollama ps` residents,
`r.delete(key)` removes the key — and with it the whole task-id set — in
full.  No other keys are scanned: the `queued_model:*` keys are never
touched. -/
def cleanup_inactive_model_tracking (residents : List String)
    (st : TrackState) : TrackState :=
  { st with active := st.active.filter (fun p => p.1 ∈ residents) }

/-! ## Claims -/

/-- C1 (amended): for every offloadable list and `required_extra > 0` such
that some subsequence of the list covers the demand, the subset returned by
`select_models_to_offload` is drawn from the list, covers the demand, has
minimum total size among all demand-covering subsets, and among those of
minimum total size has minimum cardinality.  (The original claim's final
lexicographic model-name tie-break does not hold — see the counterexample —
the choice among equal-size, equal-cardinality subsets is fixed by the
`itertools.combinations` enumeration order over the input list instead.) -/
theorem select_models_to_offload_optimal (l : List OModel) (required : ℚ)
    (hreq : 0 < required)
    (hfeas : ∃ c, c.Sublist l ∧ required ≤ sumSize c) :
    (select_models_to_offload l required).Sublist l ∧
    required ≤ sumSize (select_models_to_offload l required) ∧
    ∀ c, c.Sublist l → required ≤ sumSize c →
      sumSize (select_models_to_offload l required) ≤ sumSize c ∧
      (sumSize (select_models_to_offload l required) = sumSize c →
        (select_models_to_offload l required).length ≤ c.length) := by
  have h0 : ¬ required ≤ 0 := not_le.mpr hreq
  have hne0 : ∀ c : List OModel, required ≤ sumSize c → c ≠ [] := by
    intro c hc hnil
    rw [hnil] at hc
    simp only [sumSize, List.map_nil, List.sum_nil] at hc
    exact h0 hc
  obtain ⟨c, hcs, hcq⟩ := hfeas
  have hbest := select_isBest l required h0 ⟨c, hcs, hne0 c hcq, hcq⟩
  obtain ⟨hmem, hq, hopt⟩ := hbest
  refine ⟨((mem_allCombos_iff _ l).mp hmem).1, hq, ?_⟩
  intro d hds hdq
  exact hopt d ((mem_allCombos_iff d l).mpr ⟨hds, hne0 d hdq⟩) hdq

/-- Witness for C1 at a concrete input: for the pool
`[m1 ↦ 3 MiB, m2 ↦ 2 MiB]` and a demand of 4 MiB. -/
theorem select_models_to_offload_optimal_witness :
    (0:ℚ) < 4 ∧
    (∃ c, c.Sublist [OModel.mk "m1" 3, OModel.mk "m2" 2] ∧
      (4:ℚ) ≤ sumSize c) ∧
    ((select_models_to_offload [OModel.mk "m1" 3, OModel.mk "m2" 2] 4).Sublist
        [OModel.mk "m1" 3, OModel.mk "m2" 2] ∧
      (4:ℚ) ≤ sumSize
        (select_models_to_offload [OModel.mk "m1" 3, OModel.mk "m2" 2] 4) ∧
      ∀ c, c.Sublist [OModel.mk "m1" 3, OModel.mk "m2" 2] →
        (4:ℚ) ≤ sumSize c →
        sumSize (select_models_to_offload
          [OModel.mk "m1" 3, OModel.mk "m2" 2] 4) ≤ sumSize c ∧
        (sumSize (select_models_to_offload
            [OModel.mk "m1" 3, OModel.mk "m2" 2] 4) = sumSize c →
          (select_models_to_offload
            [OModel.mk "m1" 3, OModel.mk "m2" 2] 4).length ≤ c.length)) :=
  ⟨by norm_num,
   ⟨[OModel.mk "m1" 3, OModel.mk "m2" 2], List.Sublist.refl _,
     by norm_num [sumSize]⟩,
   select_models_to_offload_optimal [OModel.mk "m1" 3, OModel.mk "m2" 2] 4
     (by norm_num)
     ⟨[OModel.mk "m1" 3, OModel.mk "m2" 2], List.Sublist.refl _,
       by norm_num [sumSize]⟩⟩

/-- Counterexample for C1 as stated: with the pool `[bb ↦ 5, aa ↦ 5]` and a
demand of 5, the selection returns `[bb]`, yet `[aa]` also covers the
demand with the same total size and the same cardinality and `aa` precedes
`bb` lexicographically — so ties are not broken by lexicographic model-name
order. -/
theorem select_models_to_offload_not_lex :
    select_models_to_offload [OModel.mk "bb" 5, OModel.mk "aa" 5] 5 =
      [OModel.mk "bb" 5] ∧
    [OModel.mk "aa" 5].Sublist [OModel.mk "bb" 5, OModel.mk "aa" 5] ∧
    (5:ℚ) ≤ sumSize [OModel.mk "aa" 5] ∧
    sumSize [OModel.mk "aa" 5] = sumSize [OModel.mk "bb" 5] ∧
    List.length [OModel.mk "aa" 5] = List.length [OModel.mk "bb" 5] ∧
    "aa" < "bb" := by
  refine ⟨?_, ?_, ?_, ?_, rfl, ?_⟩
  · norm_num [select_models_to_offload, allCombos, combos, selStep, sumSize,
      List.range_succ, List.foldl]
  · exact (List.Sublist.refl _).cons _
  · norm_num [sumSize]
  · norm_num [sumSize]
  · rw [String.lt_iff_toList_lt]
    decide

/-- C2 (amended): when `manage_model_loading` reports `insufficient_vram`,
`process_ollama_request` does not defer or retry: it makes exactly one
admission attempt, immediately publishes `[ERROR: <planner message>]`
followed by `[DONE]` on the request's channel, and returns a failure
result (status `"failed"`, reason `model loading failure`).  No retry
counter, countdown or `max_retries_exceeded` error exists in the code. -/
theorem process_ollama_request_insufficient_vram
    (channel model innerTaskId attrId msg : String) (outcome : StreamOutcome) :
    process_ollama_request_model channel model innerTaskId attrId
      ⟨"insufficient_vram", msg⟩ outcome =
      ([Op.loadModel model, Op.publish channel (errorMsg msg),
        Op.publish channel "[DONE]"], "failed") ∧
    loadAttempts (process_ollama_request_model channel model innerTaskId
      attrId ⟨"insufficient_vram", msg⟩ outcome).1 = 1 := by
  constructor
  · simp [process_ollama_request_model]
  · simp [process_ollama_request_model, loadAttempts]

/-- Counterexample for C2 as stated: with the planner answering
`insufficient_vram` (`"GPU busy, try later"`), the task fails at once —
the trace contains a single admission attempt and the published error is
the planner's message, not `[ERROR: max_retries_exceeded]`. -/
theorem process_ollama_request_no_retry_loop :
    (process_ollama_request_model "ch" "m" "tid" "aid"
        ⟨"insufficient_vram", "GPU busy, try later"⟩ (StreamOutcome.ok [])).1 =
      [Op.loadModel "m", Op.publish "ch" "[ERROR: GPU busy, try later]",
       Op.publish "ch" "[DONE]"] ∧
    (process_ollama_request_model "ch" "m" "tid" "aid"
        ⟨"insufficient_vram", "GPU busy, try later"⟩ (StreamOutcome.ok [])).2 =
      "failed" ∧
    loadAttempts (process_ollama_request_model "ch" "m" "tid" "aid"
        ⟨"insufficient_vram", "GPU busy, try later"⟩ (StreamOutcome.ok [])).1 = 1 ∧
    "[ERROR: GPU busy, try later]" ≠ "[ERROR: max_retries_exceeded]" := by
  refine ⟨?_, ?_, ?_, by decide⟩
  · simp [process_ollama_request_model, errorMsg]
  · simp [process_ollama_request_model]
  · simp [process_ollama_request_model, loadAttempts]

theorem pubs_append (t1 t2 : List Op) (channel : String) :
    pubs (t1 ++ t2) channel = pubs t1 channel ++ pubs t2 channel := by
  simp [pubs, List.filterMap_append]

theorem pubs_map_publish (channel : String) (chunks : List String) :
    pubs (chunks.map (Op.publish channel)) channel = chunks := by
  induction chunks with
  | nil => rfl
  | cons c cs ih =>
    simp only [List.map_cons, pubs, List.filterMap_cons] at ih ⊢
    simp [ih]

/-- C9 (amended): during a normally-completing stream, `ollama_stream`
publishes on the request's channel exactly the content of every chunk the
iterator yields, in order and verbatim — including empty contents, which
lines 101-103 do not filter — followed by the single `[DONE]` sentinel. -/
theorem ollama_stream_publishes_all_chunks
    (channel model taskId : String) (chunks : List String) :
    pubs (ollama_stream_model channel model taskId
        (StreamOutcome.ok chunks)).1 channel = chunks ++ ["[DONE]"] := by
  simp only [ollama_stream_model]
  rw [show [Op.markActive model taskId, Op.markDequeued model taskId] ++
      chunks.map (Op.publish channel) ++
      [Op.publish channel "[DONE]", Op.markInactive model taskId] =
      [Op.markActive model taskId, Op.markDequeued model taskId] ++
      (chunks.map (Op.publish channel) ++
        [Op.publish channel "[DONE]", Op.markInactive model taskId]) from by
    simp]
  rw [pubs_append, pubs_append, pubs_map_publish]
  simp [pubs]

/-- Counterexample for C9 as stated: an empty chunk is published too — with
chunks `["a", "", "b"]` the channel sees `["a", "", "b", "[DONE]"]`, so a
publish before the sentinel carries the empty content string. -/
theorem ollama_stream_publishes_empty_chunk :
    pubs (ollama_stream_model "ch" "m" "tid"
        (StreamOutcome.ok ["a", "", "b"])).1 "ch" =
      ["a", "", "b", "[DONE]"] ∧
    "" ∈ (pubs (ollama_stream_model "ch" "m" "tid"
        (StreamOutcome.ok ["a", "", "b"])).1 "ch").dropLast := by
  constructor
  · simp [ollama_stream_model, pubs]
  · simp [ollama_stream_model, pubs]

/-- C4: the subset the planner selects for offloading is always drawn from
the offloadable pool, which excludes every protected name — so no model
whose name is in the active set or in the queued (reserved) set is ever
selected for offloading. -/
theorem select_models_disjoint_from_protected
    (loaded : List OModel) (active queued : List String) (required : ℚ)
    (x : OModel)
    (hx : x ∈ select_models_to_offload
      (offloadable_models loaded (active ++ queued)) required) :
    ¬ x.name ∈ active ∧ ¬ x.name ∈ queued := by
  have hsub := select_sublist
    (offloadable_models loaded (active ++ queued)) required
  have hx2 : x ∈ offloadable_models loaded (active ++ queued) :=
    hsub.subset hx
  simp only [offloadable_models, List.mem_filter, decide_not,
    Bool.not_eq_true', decide_eq_false_iff_not, List.mem_append] at hx2
  exact ⟨fun h => hx2.2 (Or.inl h), fun h => hx2.2 (Or.inr h)⟩

/-- Witness for C4: with residents `a ↦ 2 MiB` and `b ↦ 3 MiB`, `b` active
and nothing queued, the selection for a 2 MiB demand picks `a`, whose name
is in neither protected set. -/
theorem select_models_disjoint_from_protected_witness :
    OModel.mk "a" 2 ∈ select_models_to_offload
      (offloadable_models [OModel.mk "a" 2, OModel.mk "b" 3]
        (["b"] ++ [])) 2 ∧
    (¬ "a" ∈ ["b"] ∧ ¬ "a" ∈ ([] : List String)) :=
  ⟨by norm_num [select_models_to_offload, offloadable_models, allCombos,
      combos, selStep, sumSize, List.range_succ, List.foldl],
   select_models_disjoint_from_protected
     [OModel.mk "a" 2, OModel.mk "b" 3] ["b"] [] 2 (OModel.mk "a" 2)
     (by norm_num [select_models_to_offload, offloadable_models, allCombos,
        combos, selStep, sumSize, List.range_succ, List.foldl])⟩

/-- C5 (amended): for a request whose model is not resident, if the model
fits the GPU and its size is *strictly* below the free VRAM, the planner
takes the direct-load branch: it issues exactly one
`generate(model, keep_alive=-1)` pin and reports status `loaded` with
nothing offloaded.  (The source condition at line 167 is
`model_size < vram_usage['free']`; the equality case falls through to the
offload path and — `required_extra` being `0` — ends in
`insufficient_vram`, see the counterexample.) -/
theorem load_plan_direct_load (model_name : String) (model_size : ℚ)
    (vram : Vram) (loaded : List OModel) (active queued : List String)
    (offloadOk : String → Bool)
    (hres : loaded.any (fun m => m.name == model_name) = false)
    (htotal : model_size ≤ vram.total)
    (hfree : model_size < vram.free) :
    load_plan model_name model_size vram loaded active queued offloadOk =
      ⟨"loaded", [], [⟨model_name, -1⟩]⟩ := by
  simp [load_plan, hres, hfree, not_lt.mpr htotal]

/-- Witness for C5: a 3 MiB model on a GPU with 8 MiB free out of 10. -/
theorem load_plan_direct_load_witness :
    ([] : List OModel).any (fun m => m.name == "m") = false ∧
    (3:ℚ) ≤ (Vram.mk 10 2 8).total ∧
    (3:ℚ) < (Vram.mk 10 2 8).free ∧
    load_plan "m" 3 ⟨10, 2, 8⟩ [] [] [] (fun _ => true) =
      ⟨"loaded", [], [⟨"m", -1⟩]⟩ :=
  ⟨rfl, by norm_num, by norm_num,
   load_plan_direct_load "m" 3 ⟨10, 2, 8⟩ [] [] [] (fun _ => true)
     rfl (by norm_num) (by norm_num)⟩

/-- Counterexample for C5 as stated: a 4 MiB model with exactly 4 MiB of
free VRAM (`size(m*) = vram.free`, the equality case the claim includes)
is *not* loaded: the strict `<` of line 167 fails and the planner reports
`insufficient_vram`. -/
theorem load_plan_equal_free_insufficient :
    load_plan "m" 4 ⟨8, 4, 4⟩ [] [] [] (fun _ => true) =
      ⟨"insufficient_vram", [], []⟩ ∧
    (4:ℚ) ≤ (Vram.mk 8 4 4).free := by
  constructor
  · norm_num [load_plan, offloadable_models]
  · norm_num

/-- C6: `RedisLock.release` never deletes the lock key — for every stored
value and caller token, the key is left exactly as it was.  The
compare-and-delete of lines 53-58 is dead: `get_redis_client` decodes
responses, so `val` is a `str`, `val.decode()` raises `AttributeError`, and
the `except` of lines 64-66 swallows it.  In particular when the caller
does hold the lock (the stored value *is* the caller's token), the key
still is not removed. -/
theorem release_never_deletes :
    (∀ (stored : Option String) (token : String),
      RedisLock.release stored token = stored) ∧
    RedisLock.release (some "tok") "tok" = some "tok" := by
  constructor
  · intro stored token
    cases stored with
    | none => rfl
    | some s => rfl
  · rfl

/-- C8 (amended): one run of the cleanup deletes the `active_model:<m>`
key — the whole active set — of every model `m` not among the residents,
leaves every `queued_model:*` key untouched, and is idempotent.  (The
original claim also promised deletion of the reserved/queued set; the sweep
of lines 272-277 only scans `active_model:*` keys, see the
counterexample.) -/
theorem cleanup_removes_active_only (residents : List String)
    (st : TrackState) (m : String) (hm : ¬ m ∈ residents) :
    (cleanup_inactive_model_tracking residents st).active.lookup m = none ∧
    (cleanup_inactive_model_tracking residents st).queued = st.queued ∧
    cleanup_inactive_model_tracking residents
        (cleanup_inactive_model_tracking residents st) =
      cleanup_inactive_model_tracking residents st := by
  refine ⟨?_, rfl, ?_⟩
  · simp only [cleanup_inactive_model_tracking]
    induction st.active with
    | nil => rfl
    | cons a t ih =>
      by_cases ha : a.1 ∈ residents
      · have hne : (m == a.1) = false := by
          simp only [beq_eq_false_iff_ne]
          rintro rfl
          exact hm ha
        simp [List.filter_cons, ha, List.lookup, hne, ih]
      · simp [List.filter_cons, ha, ih]
  · simp [cleanup_inactive_model_tracking, List.filter_filter]

/-- Witness for C8: model `m` is tracked but not resident; its active set
is deleted in full, the queued key of `q` survives, and a second run
changes nothing. -/
theorem cleanup_removes_active_only_witness :
    ¬ "m" ∈ ["r"] ∧
    ((cleanup_inactive_model_tracking ["r"]
        ⟨[("m", ["t1"]), ("r", ["t2"])], [("q", ["t3"])]⟩).active.lookup "m"
        = none ∧
      (cleanup_inactive_model_tracking ["r"]
        ⟨[("m", ["t1"]), ("r", ["t2"])], [("q", ["t3"])]⟩).queued
        = [("q", ["t3"])] ∧
      cleanup_inactive_model_tracking ["r"]
          (cleanup_inactive_model_tracking ["r"]
            ⟨[("m", ["t1"]), ("r", ["t2"])], [("q", ["t3"])]⟩) =
        cleanup_inactive_model_tracking ["r"]
          ⟨[("m", ["t1"]), ("r", ["t2"])], [("q", ["t3"])]⟩) :=
  ⟨by simp,
   cleanup_removes_active_only ["r"]
     ⟨[("m", ["t1"]), ("r", ["t2"])], [("q", ["t3"])]⟩ "m" (by simp)⟩

/-- Counterexample for C8 as stated: model `m` has a (queued) tracker entry
and is not resident, yet the sweep leaves the whole `queued_model:m` set in
place — the reserved set is not deleted. -/
theorem cleanup_keeps_queued :
    cleanup_inactive_model_tracking [] ⟨[], [("m", ["t1"])]⟩ =
      ⟨[], [("m", ["t1"])]⟩ ∧
    ¬ "m" ∈ ([] : List String) := by
  constructor
  · rfl
  · simp

/-- C10: whatever `get_model_size` returns and whatever the code from
line 141 onward would do, `load_or_queue_model` terminates with
`UnboundLocalError` — the status check of line 137 reads `vram_usage`
before its first assignment whenever `model_size` is truthy, and every path
then reaches the `finally` of line 261, which calls `lock.release()` while
`lock` is still unbound.  No call returns a result dictionary, so none ever
yields status `loaded`. -/
theorem load_or_queue_model_always_raises
    (msize : Option ℚ) (rest : PyVal → Env → Env × Except PyExc PyDict) :
    load_or_queue_model_run msize rest =
      Except.error (PyExc.unboundLocal "lock") := by
  simp [load_or_queue_model_run, lqm_tryBody, readLocal, setLocal,
    List.lookup, apply_ite]
